import Mathlib

/-!
Shallow embedding of the feature-engineering and win-probability pipeline of
`src/app_dashboard.py` (Team-Game Flattener, Rolling-Form Calculator,
Home-Win Dataset Builder, Win-Probability Estimator), together with proofs
about the embedded definitions.

Dates are represented as natural numbers (only their ordering matters to the
pipeline).  Numeric columns computed by pandas in float64 are represented
over `ℚ`; every value the pipeline produces here is a ratio of small integer
counts, where float64 and exact rational arithmetic agree.
-/

/-- A completed game as loaded by `load_games` (the SQL query keeps only rows
with both scores non-NULL, ordered by date), so both scores are present. -/
structure Game where
  game_id : Nat
  date : Nat
  home_team_id : Nat
  away_team_id : Nat
  home_score : Nat
  away_score : Nat
deriving DecidableEq, Repr

/-- One per-team perspective row of the flattened view built by
`team_game_view`: columns game_id, date, team_id, opp_id, runs_for,
runs_against, is_home, win. -/
structure TeamGameRow where
  game_id : Nat
  date : Nat
  team_id : Nat
  opp_id : Nat
  runs_for : Nat
  runs_against : Nat
  is_home : Nat
  win : Nat
deriving DecidableEq, Repr

/-- The home-perspective row that `team_game_view` derives from a game:
team = home side, `is_home = 1`; the `win` column is
`(runs_for > runs_against).astype(int)`. -/
def homeRow (g : Game) : TeamGameRow :=
  { game_id := g.game_id
    date := g.date
    team_id := g.home_team_id
    opp_id := g.away_team_id
    runs_for := g.home_score
    runs_against := g.away_score
    is_home := 1
    win := if g.home_score > g.away_score then 1 else 0 }

/-- The away-perspective row that `team_game_view` derives from a game:
team = away side, `is_home = 0`. -/
def awayRow (g : Game) : TeamGameRow :=
  { game_id := g.game_id
    date := g.date
    team_id := g.away_team_id
    opp_id := g.home_team_id
    runs_for := g.away_score
    runs_against := g.home_score
    is_home := 0
    win := if g.away_score > g.home_score then 1 else 0 }

/-- The flattener `team_game_view`: `pd.concat([home, away])` puts every home-perspective
row (in input order) before every away-perspective row; the `win` column is
computed row-wise on the concatenation. -/
def team_game_view (games : List Game) : List TeamGameRow :=
  games.map homeRow ++ games.map awayRow

/-- Pandas `Series.rolling(window, min_periods).mean()` on a series with no missing
values: at position `i` the window is the trailing `min (i+1) window`
entries (the current entry included); the result is absent when that count
is below `min_periods`, and otherwise the arithmetic mean of the window. -/
def rollingMean (window minPeriods : Nat) (xs : List ℚ) : List (Option ℚ) :=
  (List.range xs.length).map fun i =>
    let w := (xs.take (i + 1)).drop (i + 1 - window)
    if w.length < minPeriods then none else some (w.sum / w.length)

/-- The accessor method `_Roll.winpct`:
`self._obj["win"].rolling(window, min_periods=max(1, window//2)).mean()`.
The `window` argument is a Python int and may be negative or zero; pandas
validates it when the rolling object is constructed, before any mean is
computed: a negative window raises
`ValueError: window must be an integer 0 or greater`, and `min_periods`
larger than the window raises
`ValueError: min_periods ... must be <= window ...` (which fires for
`window = 0`, where `min_periods = max(1, 0) = 1`).  Python floor division
`window // 2` on a nonnegative `window` is `window.toNat / 2`. -/
def winpct (window : Int) (wins : List ℚ) : Except String (List (Option ℚ)) :=
  if window < 0 then
    .error "window must be an integer 0 or greater"
  else if window.toNat < max 1 (window.toNat / 2) then
    .error "min_periods must be <= window"
  else
    .ok (rollingMean window.toNat (max 1 (window.toNat / 2)) wins)

/-- The calculator `rolling_win_pct`: keep the rows of one team, sort them by date
ascending (`sort_values("date")`), and annotate each row with
`_Roll.winpct window` of the `win` column. -/
def rolling_win_pct (df : List TeamGameRow) (team_id : Nat) (window : Int) :
    Except String (List (TeamGameRow × Option ℚ)) :=
  let t := List.insertionSort (fun a b => a.date ≤ b.date)
    (df.filter fun r => r.team_id == team_id)
  (winpct window (t.map fun r => (r.win : ℚ))).map fun vals => t.zip vals

/-- The `r10` annotation that `build_home_win_dataset` joins back for one
perspective of one game: the flattened view is grouped by team (rows sorted
by `["team_id", "date"]`, so within a team by date), `r10` is
`rolling(10, min_periods=5).mean()` of `win`, and the merge on
`(game_id, date, team_id)` against the `is_home`-filtered perspective frame
finds the (under the `game_id` primary key, unique) matching row.  `none`
means the merge found no match, i.e. the left join left `r10` as NaN. -/
def r10OfPerspective (tg : List TeamGameRow) (gid gdate team ishome : Nat) :
    Option (Option ℚ) :=
  let hist := List.insertionSort (fun a b => a.date ≤ b.date)
    (tg.filter fun r => r.team_id == team)
  let ann := hist.zip (rollingMean 10 5 (hist.map fun r => (r.win : ℚ)))
  (ann.find? fun p =>
    p.1.is_home == ishome && p.1.game_id == gid && p.1.date == gdate).map (·.2)

/-- One row of the frame produced by `build_home_win_dataset`: the game's
columns plus `home_r10`, `away_r10` (`none` = NaN), `home_win`, `r10_diff`
and the constant `is_home` feature. -/
structure HomeWinRow where
  game : Game
  home_r10 : Option ℚ
  away_r10 : Option ℚ
  home_win : Nat
  r10_diff : ℚ
  is_home : Nat
deriving DecidableEq, Repr

/-- The builder `build_home_win_dataset`: left-merge each perspective's `r10` onto the
games frame, derive `home_win = (home_score > away_score).astype(int)` and
`r10_diff = home_r10.fillna(0.5) - away_r10.fillna(0.5)`, set the constant
`is_home = 1`, then `dropna(subset=["home_r10", "away_r10"])`. -/
def build_home_win_dataset (games : List Game) : List HomeWinRow :=
  let tg := team_game_view games
  (games.map fun g =>
    let hr := (r10OfPerspective tg g.game_id g.date g.home_team_id 1).join
    let ar := (r10OfPerspective tg g.game_id g.date g.away_team_id 0).join
    { game := g
      home_r10 := hr
      away_r10 := ar
      home_win := if g.home_score > g.away_score then 1 else 0
      r10_diff := hr.getD (1/2) - ar.getD (1/2)
      is_home := 1 }
  ).filter fun r => r.home_r10.isSome && r.away_r10.isSome

/-- The model tab's date-range restriction
`HOME_DS[(HOME_DS.date >= start) & (HOME_DS.date <= end)]` (the subsequent
`dropna(subset=["r10_diff"])` is the identity: `r10_diff` is a total
difference of `fillna(0.5)` values, never NaN). -/
def dateRangeFilter (ds : List HomeWinRow) (start stop : Nat) :
    List HomeWinRow :=
  ds.filter fun r => start ≤ r.game.date && r.game.date ≤ stop

/-- The split index `split_idx = int(len(ds) * 0.8)`: Python `int` truncates toward zero, and
for every realistic length (below 2^50, where `n * float64(0.8)` floors to
`4n/5`) this is `⌊4n/5⌋`. -/
def splitIdx (n : Nat) : Nat := 4 * n / 5

/-- Python `X_train, y_train = X[:split_idx], y[:split_idx]` — the first
`split_idx` rows, in positional (date-ascending) order, no shuffling. -/
def trainPartition (ds : List HomeWinRow) : List HomeWinRow :=
  ds.take (splitIdx ds.length)

/-- Python `X_test, y_test = X[split_idx:], y[split_idx:]` — the remaining rows. -/
def evalPartition (ds : List HomeWinRow) : List HomeWinRow :=
  ds.drop (splitIdx ds.length)

/-- One (positive, negative) score pair's contribution to the
Mann-Whitney form of the ROC area: 1 if the positive is ranked higher,
1/2 on a tie, 0 otherwise. -/
def pairScore (sp sn : ℚ) : ℚ :=
  if sn < sp then 1 else if sp = sn then 1/2 else 0

/-- Scikit-learn `roc_auc_score(y_true, y_score)`: raises
`ValueError: Only one class present in y_true. ROC AUC score is not defined
in that case.` when `y_true` has a single class, and otherwise returns the
area under the ROC curve, equal to the mean of `pairScore` over all
(positive, negative) pairs. -/
def rocAucScore (yTrue : List Nat) (score : List ℚ) : Except String ℚ :=
  if yTrue.all (· == 1) || yTrue.all (· == 0) then
    .error "Only one class present in y_true. ROC AUC score is not defined in that case."
  else
    let pairs := yTrue.zip score
    let pos := (pairs.filter fun p => p.1 == 1).map (·.2)
    let neg := (pairs.filter fun p => p.1 != 1).map (·.2)
    .ok ((pos.map fun sp => (neg.map fun sn => pairScore sp sn).sum).sum /
      ((pos.length : ℚ) * (neg.length : ℚ)))

/-- Outcome of one run of the model tab of `render_tab`: the insufficient-data
message, an uncaught exception escaping the callback, or a rendered result
carrying the AUC and the per-evaluation-row predicted probabilities. -/
inductive ModelOutcome where
  | insufficient
  | exn (msg : String)
  | ok (auc : ℚ) (proba : List ℚ)
deriving DecidableEq, Repr

/-- The model tab of `render_tab` on the date-range-filtered dataset `ds`.
Control flow from the source: return the "Not enough historical games"
message when `len(ds) < 50`; otherwise split at `split_idx`, fit
`LogisticRegression` on the training partition and score the evaluation
partition.  `LogisticRegression.fit` raises
`ValueError: This solver needs samples of at least 2 classes in the data`
when `y_train` is single-class; its numeric LBFGS solver is float64
iterative optimization and is abstracted as the parameter `predict`, which
maps the training rows and the evaluation features to the predicted
probabilities `model.predict_proba(X_test)[:, 1]` (no property proved here
depends on the numeric values `predict` returns).  `roc_auc_score` is then
applied to the evaluation labels and those probabilities. -/
def modelTab (predict : List (ℚ × Nat) → List ℚ → List ℚ)
    (ds : List HomeWinRow) : ModelOutcome :=
  if ds.length < 50 then .insufficient
  else
    let train := trainPartition ds
    let test := evalPartition ds
    let yTrain := train.map (·.home_win)
    if yTrain.all (· == 1) || yTrain.all (· == 0) then
      .exn "This solver needs samples of at least 2 classes in the data"
    else
      let proba := predict (train.map fun r => (r.r10_diff, r.home_win))
        (test.map (·.r10_diff))
      match rocAucScore (test.map (·.home_win)) proba with
      | .error e => .exn e
      | .ok a => .ok a proba

/-! ## Helper lemmas -/

theorem rollingMean_length (W m : Nat) (xs : List ℚ) :
    (rollingMean W m xs).length = xs.length := by
  simp [rollingMean]

theorem rollingMean_getElem (W m : Nat) (xs : List ℚ) (i : Nat)
    (hi : i < xs.length) :
    (rollingMean W m xs)[i]? =
      some (if ((xs.take (i + 1)).drop (i + 1 - W)).length < m then none
        else some (((xs.take (i + 1)).drop (i + 1 - W)).sum /
          (((xs.take (i + 1)).drop (i + 1 - W)).length : ℚ))) := by
  simp [rollingMean, hi]

theorem window_length (xs : List ℚ) (W i : Nat) (hi : i < xs.length) :
    ((xs.take (i + 1)).drop (i + 1 - W)).length = min (i + 1) W := by
  simp [List.length_drop, List.length_take]
  omega

/-! ## Theorems for the claims -/

/-- C7: for every requested date range that leaves fewer than 50 dataset rows
after filtering, the model tab returns the "insufficient data" result: a
rendered message distinct from a computed result, no exception, and no model
fitting (the insufficient branch returns before the solver is invoked). -/
theorem C7_insufficient_data (predict : List (ℚ × Nat) → List ℚ → List ℚ)
    (ds : List HomeWinRow) (start stop : Nat)
    (h : (dateRangeFilter ds start stop).length < 50) :
    modelTab predict (dateRangeFilter ds start stop) = ModelOutcome.insufficient := by
  simp [modelTab, h]

/-- Witness for C7 at the empty store and the range [0, 0]. -/
theorem C7_witness :
    (dateRangeFilter [] 0 0).length < 50 ∧
    modelTab (fun _ t => t) (dateRangeFilter [] 0 0) = ModelOutcome.insufficient :=
  ⟨by decide, C7_insufficient_data (fun _ t => t) [] 0 0 (by decide)⟩

/-- C10: whenever the estimator proceeds past the insufficient-data check
(`n ≥ 50`), the split index `⌊0.8 n⌋` satisfies `1 ≤ split < n`, so the
training partition and the evaluation partition are both non-empty. -/
theorem C10_partitions_nonempty (ds : List HomeWinRow) (h : 50 ≤ ds.length) :
    1 ≤ (trainPartition ds).length ∧
    (trainPartition ds).length < ds.length ∧
    1 ≤ (evalPartition ds).length ∧
    (trainPartition ds).length = splitIdx ds.length ∧
    (evalPartition ds).length = ds.length - splitIdx ds.length := by
  have h1 : (trainPartition ds).length = min (4 * ds.length / 5) ds.length := by
    simp [trainPartition, splitIdx]
  have h2 : (evalPartition ds).length = ds.length - 4 * ds.length / 5 := by
    simp [evalPartition, splitIdx]
  have h3 : splitIdx ds.length = 4 * ds.length / 5 := rfl
  refine ⟨?_, ?_, ?_, ?_, ?_⟩ <;> omega

/-- A sample completed game used by concrete witnesses. -/
def g0 : Game :=
  { game_id := 0, date := 0, home_team_id := 1, away_team_id := 2,
    home_score := 3, away_score := 1 }

/-- A sample dataset row used by concrete witnesses. -/
def sampleRow : HomeWinRow :=
  { game := g0, home_r10 := some 1, away_r10 := some 0, home_win := 1,
    r10_diff := 1, is_home := 1 }

/-- Witness for C10 on a 50-row dataset. -/
theorem C10_witness :
    50 ≤ (List.replicate 50 sampleRow).length ∧
    (1 ≤ (trainPartition (List.replicate 50 sampleRow)).length ∧
      (trainPartition (List.replicate 50 sampleRow)).length <
        (List.replicate 50 sampleRow).length ∧
      1 ≤ (evalPartition (List.replicate 50 sampleRow)).length ∧
      (trainPartition (List.replicate 50 sampleRow)).length =
        splitIdx (List.replicate 50 sampleRow).length ∧
      (evalPartition (List.replicate 50 sampleRow)).length =
        (List.replicate 50 sampleRow).length -
          splitIdx (List.replicate 50 sampleRow).length) :=
  ⟨by simp, C10_partitions_nonempty (List.replicate 50 sampleRow) (by simp)⟩

/-- C8: every window size below 1 passed to the Rolling-Form Calculator is
rejected with a validation error raised while the rolling object is
constructed, before any rolling mean is computed. -/
theorem C8_window_validation (df : List TeamGameRow) (team : Nat)
    (window : Int) (h : window < 1) :
    ∃ msg, rolling_win_pct df team window = Except.error msg := by
  rcases lt_or_ge window 0 with h0 | h0
  · exact ⟨"window must be an integer 0 or greater",
      by simp [rolling_win_pct, winpct, h0, Except.map]⟩
  · have hz : window = 0 := by omega
    subst hz
    exact ⟨"min_periods must be <= window",
      by simp [rolling_win_pct, winpct, Except.map]⟩

/-- Witness for C8 at window 0. -/
theorem C8_witness :
    (0 : Int) < 1 ∧ ∃ msg, rolling_win_pct [] 0 0 = Except.error msg :=
  ⟨by decide, C8_window_validation [] 0 0 (by decide)⟩

/-- C6: with `n ≥ 50` rows in date-ascending order, the training partition is
exactly the first `⌊0.8 n⌋` rows in positional order and the evaluation
partition exactly the remaining rows, with no shuffling (the two partitions
concatenate back to the dataset), and every training row's date is at most
every evaluation row's date. -/
theorem C6_chronological_split (ds : List HomeWinRow) (h50 : 50 ≤ ds.length)
    (hsorted : ds.Pairwise fun a b => a.game.date ≤ b.game.date) :
    trainPartition ds = ds.take (splitIdx ds.length) ∧
    evalPartition ds = ds.drop (splitIdx ds.length) ∧
    trainPartition ds ++ evalPartition ds = ds ∧
    (trainPartition ds).length = splitIdx ds.length ∧
    ∀ r ∈ trainPartition ds, ∀ s ∈ evalPartition ds,
      r.game.date ≤ s.game.date := by
  refine ⟨rfl, rfl, List.take_append_drop _ _, ?_, ?_⟩
  · simp only [trainPartition, splitIdx, List.length_take]
    omega
  · rw [← List.take_append_drop (splitIdx ds.length) ds] at hsorted
    exact (List.pairwise_append.mp hsorted).2.2

/-- Witness for C6 on a 50-row dataset with equal dates. -/
theorem C6_witness :
    50 ≤ (List.replicate 50 sampleRow).length ∧
    (List.replicate 50 sampleRow).Pairwise
      (fun a b => a.game.date ≤ b.game.date) ∧
    ∀ r ∈ trainPartition (List.replicate 50 sampleRow),
      ∀ s ∈ evalPartition (List.replicate 50 sampleRow),
        r.game.date ≤ s.game.date :=
  ⟨by simp, by simp,
    (C6_chronological_split (List.replicate 50 sampleRow) (by simp)
      (by simp)).2.2.2.2⟩

/-- The date ordering on flattened rows used by `sort_values("date")`. -/
def dateLe (a b : TeamGameRow) : Prop := a.date ≤ b.date

instance : DecidableRel dateLe := fun a b => Nat.decLe a.date b.date

instance : IsTotal TeamGameRow dateLe := ⟨fun a b => Nat.le_total a.date b.date⟩

instance : IsTrans TeamGameRow dateLe := ⟨fun _ _ _ h h' => Nat.le_trans h h'⟩

/-- C2: for every team, window `W ≥ 1` and row collection, the Rolling-Form
Calculator succeeds and annotates the team's rows, sorted by date ascending
(a permutation of the team's rows), position `i` carrying the mean of the
`win` flag over the trailing `W` rows including the current one (i.e. the
last `min (i+1) W` sorted rows), absent exactly when the number `i+1` of
prior-or-current observations is below the floor `max 1 ⌊W/2⌋`. -/
theorem C2_rolling_form (df : List TeamGameRow) (team : Nat) (W : Nat)
    (hW : 1 ≤ W) :
    ∃ out, rolling_win_pct df team (W : Int) = Except.ok out ∧
      List.Sorted dateLe (out.map Prod.fst) ∧
      (out.map Prod.fst).Perm (df.filter fun r => r.team_id == team) ∧
      ∀ i, i < out.length →
        out[i]?.map Prod.snd =
          some (if i + 1 < max 1 (W / 2) then none
            else some
              ((((out.map fun p => ((p.1.win : ℚ))).take (i + 1)).drop
                  (i + 1 - W)).sum / ((min (i + 1) W : ℕ) : ℚ))) := by
  classical
  set t := List.insertionSort (fun a b => a.date ≤ b.date)
    (df.filter fun r => r.team_id == team) with ht
  set wins : List ℚ := t.map fun r => (r.win : ℚ) with hwins
  set m : Nat := max 1 (W / 2) with hm
  have hmW : m ≤ W := by
    have : W / 2 ≤ W := Nat.div_le_self _ _
    omega
  have hok : winpct (W : Int) wins = Except.ok (rollingMean W m wins) := by
    rw [winpct]
    rw [if_neg (by omega), if_neg (by omega)]
    congr 1
  have hvlen : (rollingMean W m wins).length = wins.length :=
    rollingMean_length _ _ _
  have hwlen : wins.length = t.length := by simp [hwins]
  have hfst : (t.zip (rollingMean W m wins)).map Prod.fst = t :=
    List.map_fst_zip _ _ (by omega)
  refine ⟨t.zip (rollingMean W m wins), ?_, ?_, ?_, ?_⟩
  · simp only [rolling_win_pct, ← ht, ← hwins, hok, Except.map]
  · rw [hfst, ht]
    exact List.sorted_insertionSort dateLe _
  · rw [hfst, ht]
    exact List.perm_insertionSort _ _
  · intro i hi
    have hit : i < t.length := by
      rw [List.length_zip] at hi
      omega
    have hiw : i < wins.length := by omega
    have hv := rollingMean_getElem W m wins i hiw
    have hzip : (t.zip (rollingMean W m wins))[i]? =
        some (t.get ⟨i, hit⟩,
          (if ((wins.take (i + 1)).drop (i + 1 - W)).length < m then none
            else some (((wins.take (i + 1)).drop (i + 1 - W)).sum /
              (((wins.take (i + 1)).drop (i + 1 - W)).length : ℚ)))) :=
      List.getElem?_zip_eq_some.mpr
        ⟨by simp [List.getElem?_eq_getElem hit], hv⟩
    have hmapwin : ((t.zip (rollingMean W m wins)).map
        fun p => ((p.1.win : ℚ))) = wins := by
      have hcomp : (fun p : TeamGameRow × Option ℚ => ((p.1.win : ℚ))) =
          (fun r : TeamGameRow => ((r.win : ℚ))) ∘ Prod.fst := rfl
      rw [hcomp, ← List.map_map, hfst]
    have hwl : ((wins.take (i + 1)).drop (i + 1 - W)).length = min (i + 1) W :=
      window_length wins W i hiw
    rw [hzip, hmapwin]
    simp only [Option.map_some']
    have hcond : (min (i + 1) W < m) ↔ (i + 1 < m) := by omega
    rw [hwl]
    simp only [hcond]

/-- For a window `W ≥ 1` the pandas validation in `winpct` passes. -/
theorem winpct_natCast_ok (W : Nat) (hW : 1 ≤ W) (wins : List ℚ) :
    winpct (W : Int) wins =
      Except.ok (rollingMean W (max 1 (W / 2)) wins) := by
  rw [winpct, if_neg (by omega), if_neg (by omega)]
  congr 1

/-- Sample flattened rows of team 1 (dates ascending, one loss then one
win), used by the C2 witness. -/
def sampleTG : List TeamGameRow :=
  [{ game_id := 0, date := 0, team_id := 1, opp_id := 2, runs_for := 0,
     runs_against := 1, is_home := 1, win := 0 },
   { game_id := 1, date := 1, team_id := 1, opp_id := 2, runs_for := 2,
     runs_against := 1, is_home := 1, win := 1 }]

/-- Witness for C2 at team 1, window 2, on `sampleTG`. -/
theorem C2_witness :
    (1 : ℕ) ≤ 2 ∧
    ∃ out, rolling_win_pct sampleTG 1 ((2 : ℕ) : Int) = Except.ok out ∧
      List.Sorted dateLe (out.map Prod.fst) ∧
      (out.map Prod.fst).Perm (sampleTG.filter fun r => r.team_id == 1) ∧
      ∀ i, i < out.length →
        out[i]?.map Prod.snd =
          some (if i + 1 < max 1 (2 / 2) then none
            else some
              ((((out.map fun p => ((p.1.win : ℚ))).take (i + 1)).drop
                  (i + 1 - 2)).sum / ((min (i + 1) 2 : ℕ) : ℚ))) :=
  ⟨by decide, C2_rolling_form sampleTG 1 2 (by decide)⟩

/-- Amended C3: the rolling form of the Rolling-Form Calculator is computed
over the trailing window including the current game's own outcome, so at
position `i` (which has `i` strictly prior rows) it is present exactly when
`i + 1 ≥ max 1 ⌊W/2⌋`: with `floor - 1` strictly prior rows it is already
defined, and with `floor - 2` strictly prior rows it is absent. -/
theorem C3_amended_inclusive_boundary (df : List TeamGameRow) (team : Nat)
    (W : Nat) (hW : 1 ≤ W) :
    ∃ out, rolling_win_pct df team (W : Int) = Except.ok out ∧
      ∀ i, i < out.length → ∃ r v, out[i]? = some (r, v) ∧
        (v.isSome = true ↔ max 1 (W / 2) ≤ i + 1) := by
  classical
  set t := List.insertionSort (fun a b => a.date ≤ b.date)
    (df.filter fun r => r.team_id == team) with ht
  set wins : List ℚ := t.map fun r => (r.win : ℚ) with hwins
  set m : Nat := max 1 (W / 2) with hm
  have hmW : m ≤ W := by
    have : W / 2 ≤ W := Nat.div_le_self _ _
    omega
  have hok : winpct (W : Int) wins = Except.ok (rollingMean W m wins) :=
    winpct_natCast_ok W hW wins
  have hvlen : (rollingMean W m wins).length = wins.length :=
    rollingMean_length _ _ _
  have hwlen : wins.length = t.length := by simp [hwins]
  refine ⟨t.zip (rollingMean W m wins), ?_, ?_⟩
  · simp only [rolling_win_pct, ← ht, ← hwins, hok, Except.map]
  · intro i hi
    have hit : i < t.length := by
      rw [List.length_zip] at hi
      omega
    have hiw : i < wins.length := by omega
    have hv := rollingMean_getElem W m wins i hiw
    have hwl := window_length wins W i hiw
    refine ⟨t.get ⟨i, hit⟩,
      (if ((wins.take (i + 1)).drop (i + 1 - W)).length < m then none
        else some (((wins.take (i + 1)).drop (i + 1 - W)).sum /
          (((wins.take (i + 1)).drop (i + 1 - W)).length : ℚ))),
      List.getElem?_zip_eq_some.mpr ⟨by simp [List.getElem?_eq_getElem hit], hv⟩, ?_⟩
    by_cases hc : ((wins.take (i + 1)).drop (i + 1 - W)).length < m
    · rw [if_pos hc]
      simp only [Option.isSome_none, Bool.false_eq_true, false_iff]
      rw [hwl] at hc
      omega
    · rw [if_neg hc]
      simp only [Option.isSome_some, true_iff]
      rw [hwl] at hc
      omega

/-- Witness for the amended C3 at team 1, window 10, on `sampleTG`. -/
theorem C3_amended_witness :
    (1 : ℕ) ≤ 10 ∧
    ∃ out, rolling_win_pct sampleTG 1 ((10 : ℕ) : Int) = Except.ok out ∧
      ∀ i, i < out.length → ∃ r v, out[i]? = some (r, v) ∧
        (v.isSome = true ↔ max 1 (10 / 2) ≤ i + 1) :=
  ⟨by decide, C3_amended_inclusive_boundary sampleTG 1 10 (by decide)⟩

/-- Five flattened rows of team 1, dates 0–4, wins 0,0,0,0,1, used by the
C3 counterexample. -/
def tg5 : List TeamGameRow :=
  [{ game_id := 0, date := 0, team_id := 1, opp_id := 2, runs_for := 0,
     runs_against := 1, is_home := 1, win := 0 },
   { game_id := 1, date := 1, team_id := 1, opp_id := 2, runs_for := 0,
     runs_against := 1, is_home := 1, win := 0 },
   { game_id := 2, date := 2, team_id := 1, opp_id := 2, runs_for := 0,
     runs_against := 1, is_home := 1, win := 0 },
   { game_id := 3, date := 3, team_id := 1, opp_id := 2, runs_for := 0,
     runs_against := 1, is_home := 1, win := 0 },
   { game_id := 4, date := 4, team_id := 1, opp_id := 2, runs_for := 2,
     runs_against := 1, is_home := 1, win := 1 }]

/-- Counterexample to C3 as stated: with window 10 the floor is 5, and at
the fifth row of `tg5` only `5 - 1 = 4` strictly prior games exist, yet the
rolling form is present — and its value `1/5` includes the current game's
own win (the mean over the four strictly prior games would be `0`).  C3
predicted an absent value there. -/
theorem C3_counterexample :
    rolling_win_pct tg5 1 10 =
      Except.ok
        [({ game_id := 0, date := 0, team_id := 1, opp_id := 2, runs_for := 0,
            runs_against := 1, is_home := 1, win := 0 }, none),
         ({ game_id := 1, date := 1, team_id := 1, opp_id := 2, runs_for := 0,
            runs_against := 1, is_home := 1, win := 0 }, none),
         ({ game_id := 2, date := 2, team_id := 1, opp_id := 2, runs_for := 0,
            runs_against := 1, is_home := 1, win := 0 }, none),
         ({ game_id := 3, date := 3, team_id := 1, opp_id := 2, runs_for := 0,
            runs_against := 1, is_home := 1, win := 0 }, none),
         ({ game_id := 4, date := 4, team_id := 1, opp_id := 2, runs_for := 2,
            runs_against := 1, is_home := 1, win := 1 }, some (1/5))] := by
  simp [rolling_win_pct, winpct, rollingMean, tg5, List.insertionSort,
    List.orderedInsert, List.range_succ, Except.map]

/-- On a games list with pairwise distinct game ids, filtering by one
member's id keeps exactly that member. -/
theorem filter_gameId_singleton (games : List Game) (g : Game)
    (h : games.Pairwise fun a b => a.game_id ≠ b.game_id) (hg : g ∈ games) :
    games.filter (fun x => x.game_id == g.game_id) = [g] := by
  induction games with
  | nil => cases hg
  | cons a l ih =>
    rcases List.pairwise_cons.mp h with ⟨ha, hl⟩
    rcases List.mem_cons.mp hg with rfl | hgl
    · have hnil : l.filter (fun x => x.game_id == g.game_id) = [] :=
        List.filter_eq_nil_iff.mpr fun b hb => by
          simp only [beq_iff_eq]
          exact fun hb2 => (ha b hb) hb2.symm
      simp [List.filter_cons, hnil]
    · have hne : (a.game_id == g.game_id) = false := by
        simp only [beq_eq_false_iff_ne, ne_eq]
        exact ha g hgl
      simp [List.filter_cons, hne, ih hl hgl]

/-- C4 (amended: games with unequal scores): for a completed game with
distinct scores in a games list with unique ids, the flattener emits
exactly the home-perspective and away-perspective rows with that game id,
`is_home` 1 and 0 respectively, the pair's `win` flags sum to exactly 1,
and on each row `win = 1` iff `runs_for > runs_against` (so a tied game
would yield `win = 0` on both rows). -/
theorem C4_flattener_pair (games : List Game) (g : Game)
    (huniq : games.Pairwise fun a b => a.game_id ≠ b.game_id)
    (hg : g ∈ games) (hne : g.home_score ≠ g.away_score) :
    ((team_game_view games).filter fun r => r.game_id == g.game_id) =
      [homeRow g, awayRow g] ∧
    (homeRow g).is_home = 1 ∧ (awayRow g).is_home = 0 ∧
    (homeRow g).game_id = g.game_id ∧ (awayRow g).game_id = g.game_id ∧
    (homeRow g).win + (awayRow g).win = 1 ∧
    ((homeRow g).win = 1 ↔ (homeRow g).runs_for > (homeRow g).runs_against) ∧
    ((awayRow g).win = 1 ↔ (awayRow g).runs_for > (awayRow g).runs_against) := by
  have hwin : ∀ (x y : Nat), ((if x > y then 1 else 0) : Nat) = 1 ↔ x > y := by
    intro x y
    split_ifs with h <;> simp [h]
  refine ⟨?_, rfl, rfl, rfl, rfl, ?_, hwin g.home_score g.away_score,
    hwin g.away_score g.home_score⟩
  · rw [team_game_view, List.filter_append]
    have hh : (games.map homeRow).filter (fun r => r.game_id == g.game_id) =
        [homeRow g] := by
      rw [List.filter_map]
      have hc : (fun r : TeamGameRow => r.game_id == g.game_id) ∘ homeRow =
          fun x : Game => x.game_id == g.game_id := rfl
      rw [hc, filter_gameId_singleton games g huniq hg]
      rfl
    have haw : (games.map awayRow).filter (fun r => r.game_id == g.game_id) =
        [awayRow g] := by
      rw [List.filter_map]
      have hc : (fun r : TeamGameRow => r.game_id == g.game_id) ∘ awayRow =
          fun x : Game => x.game_id == g.game_id := rfl
      rw [hc, filter_gameId_singleton games g huniq hg]
      rfl
    rw [hh, haw]
    rfl
  · have hh : (homeRow g).win = if g.home_score > g.away_score then 1 else 0 :=
      rfl
    have ha : (awayRow g).win = if g.away_score > g.home_score then 1 else 0 :=
      rfl
    rw [hh, ha]
    rcases Nat.lt_trichotomy g.home_score g.away_score with h | h | h
    · rw [if_neg (by omega), if_pos (by omega)]
    · exact absurd h hne
    · rw [if_pos (by omega), if_neg (by omega)]

/-- Witness for C4 on the single decisive game `g0` (3–1). -/
theorem C4_witness :
    ([g0].Pairwise fun a b => a.game_id ≠ b.game_id) ∧ g0 ∈ [g0] ∧
    g0.home_score ≠ g0.away_score ∧
    (((team_game_view [g0]).filter fun r => r.game_id == g0.game_id) =
        [homeRow g0, awayRow g0] ∧
      (homeRow g0).is_home = 1 ∧ (awayRow g0).is_home = 0 ∧
      (homeRow g0).game_id = g0.game_id ∧ (awayRow g0).game_id = g0.game_id ∧
      (homeRow g0).win + (awayRow g0).win = 1 ∧
      ((homeRow g0).win = 1 ↔ (homeRow g0).runs_for > (homeRow g0).runs_against) ∧
      ((awayRow g0).win = 1 ↔ (awayRow g0).runs_for > (awayRow g0).runs_against)) :=
  ⟨by simp, by simp, by decide,
    C4_flattener_pair [g0] g0 (by simp) (by simp) (by decide)⟩

/-- A tied completed game (3–3): both scores present and equal. -/
def gtie : Game :=
  { game_id := 7, date := 3, home_team_id := 1, away_team_id := 2,
    home_score := 3, away_score := 3 }

/-- Counterexample to C4 as stated: on the tied completed game `gtie`
(scores 3–3, both non-null) the flattener's pair of rows both carry
`win = 0`, so the sum of the win flags across the pair is 0, not 1. -/
theorem C4_counterexample :
    ((team_game_view [gtie]).filter fun r =>
      r.game_id == gtie.game_id).map (fun r => r.win) = [0, 0] := by
  decide

/-- C5: every row emitted by the Home-Win Dataset Builder has both rolling
form values present (the `dropna` filter removes every row where either side
was absent pre-join), and on every emitted row `r10_diff` equals the home
rolling form minus the away rolling form, computed as the difference of the
`fillna(0.5)` defaults (which, both values being present, never actually
substitutes). -/
theorem C5_dataset_rows (games : List Game) (r : HomeWinRow)
    (hr : r ∈ build_home_win_dataset games) :
    ∃ h a, r.home_r10 = some h ∧ r.away_r10 = some a ∧
      r.r10_diff = h - a ∧
      r.r10_diff = (r.home_r10.getD (1/2)) - (r.away_r10.getD (1/2)) := by
  simp only [build_home_win_dataset] at hr
  rcases List.mem_filter.mp hr with ⟨hmem, hp⟩
  rcases List.mem_map.mp hmem with ⟨g, hgmem, hre⟩
  subst hre
  rw [Bool.and_eq_true] at hp
  obtain ⟨hhs, has⟩ := hp
  rw [Option.isSome_iff_exists] at hhs has
  obtain ⟨h, hh⟩ := hhs
  obtain ⟨a, ha⟩ := has
  simp only at hh ha
  refine ⟨h, a, hh, ha, ?_, ?_⟩
  · simp only [hh, ha, Option.getD_some]
  · simp only [hh, ha, Option.getD_some]

/-- Five completed games between teams 1 and 2, all tied 1–1, used by the
C5 witness: only the fifth game has enough history (5 prior-or-current
rows per team) for both rolling forms to be present. -/
def games5 : List Game :=
  [{ game_id := 0, date := 0, home_team_id := 1, away_team_id := 2,
     home_score := 1, away_score := 1 },
   { game_id := 1, date := 1, home_team_id := 1, away_team_id := 2,
     home_score := 1, away_score := 1 },
   { game_id := 2, date := 2, home_team_id := 1, away_team_id := 2,
     home_score := 1, away_score := 1 },
   { game_id := 3, date := 3, home_team_id := 1, away_team_id := 2,
     home_score := 1, away_score := 1 },
   { game_id := 4, date := 4, home_team_id := 1, away_team_id := 2,
     home_score := 1, away_score := 1 }]

/-- The single row the Dataset Builder emits for `games5`. -/
def games5Row : HomeWinRow :=
  { game := { game_id := 4, date := 4, home_team_id := 1, away_team_id := 2,
              home_score := 1, away_score := 1 },
    home_r10 := some 0, away_r10 := some 0, home_win := 0, r10_diff := 0,
    is_home := 1 }

/-- Witness for C5 on the emitted row of `games5`. -/
theorem C5_witness :
    games5Row ∈ build_home_win_dataset games5 ∧
    ∃ h a, games5Row.home_r10 = some h ∧ games5Row.away_r10 = some a ∧
      games5Row.r10_diff = h - a ∧
      games5Row.r10_diff =
        (games5Row.home_r10.getD (1/2)) - (games5Row.away_r10.getD (1/2)) :=
  ⟨by simp [build_home_win_dataset, team_game_view, r10OfPerspective,
      rollingMean, homeRow, awayRow, games5, games5Row, List.insertionSort,
      List.orderedInsert, List.range_succ, List.filter, List.find?],
    C5_dataset_rows games5 games5Row
      (by simp [build_home_win_dataset, team_game_view, r10OfPerspective,
        rollingMean, homeRow, awayRow, games5, games5Row, List.insertionSort,
        List.orderedInsert, List.range_succ, List.filter, List.find?])⟩

/-- A concrete stand-in for the fitted model's probability output (constant
1/2 per evaluation row); the exceptions proved below occur for every
predictor, before any probability value is inspected. -/
def constHalf : List (ℚ × Nat) → List ℚ → List ℚ :=
  fun _ t => t.map fun _ => (1/2 : ℚ)

/-- A 50-row date-range-filtered dataset: rows 0–19 are home losses, rows
20–49 home wins, dates ascending.  Its training partition (first 40 rows)
contains both classes; its evaluation partition (last 10 rows) is
single-class (all home wins). -/
def dsC1 : List HomeWinRow :=
  (List.range 50).map fun i =>
    { game := { game_id := i, date := i, home_team_id := 1, away_team_id := 2,
                home_score := if i < 20 then 0 else 1,
                away_score := if i < 20 then 1 else 0 },
      home_r10 := some (1/2), away_r10 := some (1/2),
      home_win := if i < 20 then 0 else 1, r10_diff := 0, is_home := 1 }

/-- Counterexample to C1 as stated: on `dsC1` the evaluation partition is
all home wins, and the model tab run does not return a result with the AUC
marked undefined — it raises the uncaught `ValueError` of
`roc_auc_score`, which escapes the callback. -/
theorem C1_counterexample :
    modelTab constHalf dsC1 =
      ModelOutcome.exn
        "Only one class present in y_true. ROC AUC score is not defined in that case." := by
  decide

/-- Amended C1: for every run of the Win-Probability Estimator that passes
the insufficient-data check and whose evaluation partition contains only
one label class, the call raises an uncaught exception (from
`LogisticRegression.fit` when the training partition is also single-class,
otherwise the `ValueError` of `roc_auc_score`); it never returns a
result — neither one with the AUC marked undefined nor one with a
fabricated number. -/
theorem C1_amended_raises (predict : List (ℚ × Nat) → List ℚ → List ℚ)
    (ds : List HomeWinRow) (h50 : 50 ≤ ds.length)
    (hsingle : (((evalPartition ds).map fun r => r.home_win).all (· == 1) ||
      ((evalPartition ds).map fun r => r.home_win).all (· == 0)) = true) :
    ∃ msg, modelTab predict ds = ModelOutcome.exn msg := by
  simp only [modelTab, rocAucScore]
  rw [if_neg (by omega)]
  by_cases htr : (((trainPartition ds).map fun r => r.home_win).all (· == 1) ||
      ((trainPartition ds).map fun r => r.home_win).all (· == 0)) = true
  · rw [if_pos htr]
    exact ⟨_, rfl⟩
  · rw [if_neg htr, if_pos hsingle]
    exact ⟨_, rfl⟩

/-- Witness for the amended C1 on `dsC1`. -/
theorem C1_amended_witness :
    50 ≤ dsC1.length ∧
    (((evalPartition dsC1).map fun r => r.home_win).all (· == 1) ||
      ((evalPartition dsC1).map fun r => r.home_win).all (· == 0)) = true ∧
    ∃ msg, modelTab constHalf dsC1 = ModelOutcome.exn msg :=
  ⟨by decide, by decide,
    C1_amended_raises constHalf dsC1 (by decide) (by decide)⟩

/-- Replacing an entry equal to 0 by 1 raises a rational list's sum by 1. -/
theorem sum_set_zero_to_one (l : List ℚ) (k : Nat) (hk : l[k]? = some 0) :
    (l.set k 1).sum = l.sum + 1 := by
  induction l generalizing k with
  | nil => simp at hk
  | cons x xs ih =>
    cases k with
    | zero =>
      rw [List.getElem?_cons_zero] at hk
      obtain rfl : x = (0 : ℚ) := Option.some.inj hk
      simp only [List.set_cons_zero, List.sum_cons]
      ring
    | succ n =>
      rw [List.getElem?_cons_succ] at hk
      simp only [List.set_cons_succ, List.sum_cons, ih n hk]
      ring

/-- Core monotonicity of `rollingMean`: if position `j` lies inside the
trailing window ending at position `i`, the value at `j` is a loss (0), and
the rolling mean is defined at `i`, then setting the loss to a win (1)
keeps it defined and does not decrease it. -/
theorem rollingMean_set_loss_to_win (W m : Nat) (xs : List ℚ) (i j : Nat)
    (v : ℚ) (hj : j ≤ i) (hjW : i < j + W) (hjx : xs[j]? = some 0)
    (hv : (rollingMean W m xs)[i]? = some (some v)) :
    ∃ v2, (rollingMean W m (xs.set j 1))[i]? = some (some v2) ∧ v ≤ v2 := by
  have hjlen : j < xs.length := by
    by_contra hcon
    rw [List.getElem?_eq_none (by omega)] at hjx
    cases hjx
  have hilen : i < xs.length := by
    by_contra hcon
    have : (rollingMean W m xs)[i]? = none :=
      List.getElem?_eq_none (by rw [rollingMean_length]; omega)
    rw [this] at hv
    cases hv
  have hwin : (rollingMean W m xs)[i]? =
      some (if ((xs.take (i + 1)).drop (i + 1 - W)).length < m then none
        else some (((xs.take (i + 1)).drop (i + 1 - W)).sum /
          (((xs.take (i + 1)).drop (i + 1 - W)).length : ℚ))) :=
    rollingMean_getElem W m xs i hilen
  rw [hwin] at hv
  have hv' := Option.some.inj hv
  by_cases hc : ((xs.take (i + 1)).drop (i + 1 - W)).length < m
  · rw [if_pos hc] at hv'
    cases hv'
  rw [if_neg hc] at hv'
  have hveq : v = ((xs.take (i + 1)).drop (i + 1 - W)).sum /
      (((xs.take (i + 1)).drop (i + 1 - W)).length : ℚ) :=
    (Option.some.inj hv').symm
  -- the modified list and its window
  have hyslen : (xs.set j 1).length = xs.length := List.length_set xs j 1
  have hwy : ((xs.set j 1).take (i + 1)).drop (i + 1 - W) =
      (((xs.take (i + 1)).drop (i + 1 - W)).set (j - (i + 1 - W)) 1) := by
    rw [List.set_take, List.drop_set, if_neg (by omega)]
  have hwj : ((xs.take (i + 1)).drop (i + 1 - W))[j - (i + 1 - W)]? =
      some 0 := by
    rw [List.getElem?_drop]
    have hidx : (i + 1 - W) + (j - (i + 1 - W)) = j := by omega
    rw [hidx, List.getElem?_take_of_lt (by omega)]
    exact hjx
  have hsum : (((xs.take (i + 1)).drop (i + 1 - W)).set (j - (i + 1 - W)) 1).sum
      = ((xs.take (i + 1)).drop (i + 1 - W)).sum + 1 :=
    sum_set_zero_to_one _ _ hwj
  have hlen2 : (((xs.take (i + 1)).drop (i + 1 - W)).set
      (j - (i + 1 - W)) 1).length = ((xs.take (i + 1)).drop (i + 1 - W)).length :=
    List.length_set _ _ _
  have hwin2 : (rollingMean W m (xs.set j 1))[i]? =
      some (if (((xs.set j 1).take (i + 1)).drop (i + 1 - W)).length < m
        then none
        else some ((((xs.set j 1).take (i + 1)).drop (i + 1 - W)).sum /
          ((((xs.set j 1).take (i + 1)).drop (i + 1 - W)).length : ℚ))) :=
    rollingMean_getElem W m (xs.set j 1) i (by omega)
  rw [hwy, hsum, hlen2] at hwin2
  rw [hwin2, if_neg hc]
  have hlenpos : (0 : ℚ) < (((xs.take (i + 1)).drop (i + 1 - W)).length : ℚ) := by
    have hl := window_length xs W i hilen
    have : 1 ≤ ((xs.take (i + 1)).drop (i + 1 - W)).length := by
      rw [hl]
      omega
    exact_mod_cast Nat.lt_of_lt_of_le Nat.zero_lt_one this
  refine ⟨(((xs.take (i + 1)).drop (i + 1 - W)).sum + 1) /
      (((xs.take (i + 1)).drop (i + 1 - W)).length : ℚ), rfl, ?_⟩
  rw [hveq]
  exact div_le_div_of_nonneg_right (by linarith) (le_of_lt hlenpos)

/-- C9: at every position of a team's date-ordered win sequence at which the
rolling win percentage of `_Roll.winpct` is defined, replacing any single
loss (0) inside the trailing window by a win (1), holding all other rows
constant, keeps the value defined and never decreases it. -/
theorem C9_loss_to_win_monotone (W : Nat) (hW : 1 ≤ W) (wins : List ℚ)
    (i j : Nat) (v : ℚ) (hj : j ≤ i) (hjW : i < j + W)
    (hjx : wins[j]? = some 0)
    (hv : ∃ vals, winpct (W : Int) wins = Except.ok vals ∧
      vals[i]? = some (some v)) :
    ∃ vals2 v2, winpct (W : Int) (wins.set j 1) = Except.ok vals2 ∧
      vals2[i]? = some (some v2) ∧ v ≤ v2 := by
  obtain ⟨vals, hok, hvi⟩ := hv
  rw [winpct_natCast_ok W hW wins] at hok
  obtain rfl : rollingMean W (max 1 (W / 2)) wins = vals := Except.ok.inj hok
  obtain ⟨v2, h1, h2⟩ :=
    rollingMean_set_loss_to_win W (max 1 (W / 2)) wins i j v hj hjW hjx hvi
  exact ⟨_, v2, winpct_natCast_ok W hW _, h1, h2⟩

/-- Witness for C9: wins `[0, 1]`, window 2; replacing the loss at
position 0 inside the window ending at position 1. -/
theorem C9_witness :
    (1 : ℕ) ≤ 2 ∧ (0 : ℕ) ≤ 1 ∧ (1 : ℕ) < 0 + 2 ∧
    ([(0 : ℚ), 1])[0]? = some 0 ∧
    ∃ vals2 v2,
      winpct ((2 : ℕ) : Int) ([(0 : ℚ), 1].set 0 1) = Except.ok vals2 ∧
      vals2[1]? = some (some v2) ∧ (1 / 2 : ℚ) ≤ v2 :=
  ⟨by decide, by decide, by decide, rfl,
    C9_loss_to_win_monotone 2 (by decide) [0, 1] 1 0 (1/2) (by decide)
      (by decide) rfl
      ⟨_, winpct_natCast_ok 2 (by decide) [0, 1],
        by norm_num [rollingMean, List.range_succ]⟩⟩
